import Mathlib

/-!
Verification of the dashboard-commerce admin UI logic.

This file gives a shallow embedding of the client-side logic of the
dashboard-commerce repository and proves the specified properties about it:

* the product-variant combination generator of the product-creation page
  (`generateVariants`, `generateCombinations`, `generateVariantName`,
  `generateVariantSku`),
* the slug/code auto-generation (`generateSlug` on the product page and
  `generateCode` on the facet page, both the same pipeline of
  toLowerCase, removal of characters outside [a-z0-9\s-], replacement of
  whitespace runs by a hyphen, and trim),
* the pagination variables built by the listing pages (`fetchProducts`,
  `fetchOrders`, `fetchFacets`),
* the mutation handlers of the products listing and the order-creation
  pages (`deleteProduct`, `addItemToOrder`, `completeOrder` and the other
  draft-order handlers), modelled as pure transition functions taking the
  remote response as an explicit argument and returning the new local
  state together with the emitted toasts and GraphQL requests.
-/

namespace Dashboard

/-- An option value of an option group, as held in the product form:
`{ id, name, code }`. -/
structure ProductOption where
  id : String
  name : String
  code : String
deriving DecidableEq

/-- An option group of the product form: `{ id, name, code, options }`. -/
structure OptionGroup where
  id : String
  name : String
  code : String
  options : List ProductOption
deriving DecidableEq

/-- One selection of a variant: `{ optionGroupId, optionId }`. -/
structure Selection where
  optionGroupId : String
  optionId : String
deriving DecidableEq

/-- A client-side variant stub as produced by `generateVariants`. -/
structure Variant where
  name : String
  sku : String
  price : Nat
  stockOnHand : Nat
  enabled : Bool
  options : List Selection
deriving DecidableEq

/-- The validity test used throughout the generator: the truthiness test
`option.name && option.code` of the source, i.e. both strings non-empty. -/
def isValidOption (o : ProductOption) : Bool :=
  o.name != "" && o.code != ""

/-- The group filter of `generateVariants`:
`group.options.some((option) => option.name && option.code)`. -/
def hasValidOption (g : OptionGroup) : Bool :=
  g.options.any isValidOption

/-- `generateCombinations` of the product-creation page: the recursive
Cartesian product over the option groups, filtering each group's options
by validity.  The source distinguishes the empty list, the one-group case
and the general case exactly as here. -/
def generateCombinations : List OptionGroup → List (List Selection)
  | [] => []
  | [firstGroup] =>
    (firstGroup.options.filter isValidOption).map
      (fun o => [Selection.mk firstGroup.id o.id])
  | firstGroup :: secondGroup :: restGroups =>
    let firstOptions := firstGroup.options.filter isValidOption
    let restCombinations := generateCombinations (secondGroup :: restGroups)
    firstOptions.flatMap
      (fun o => restCombinations.map (fun rc => Selection.mk firstGroup.id o.id :: rc))

/-- The double lookup performed by `generateVariantName` and
`generateVariantSku`: find the option group by id among the form's option
groups, then the option by id inside it. -/
def lookupOption (optionGroups : List OptionGroup) (sel : Selection) :
    Option ProductOption :=
  match optionGroups.find? (fun g => g.id == sel.optionGroupId) with
  | some group => group.options.find? (fun o => o.id == sel.optionId)
  | none => none

/-- `generateVariantName` of the product-creation page: the selected option
names (empty when a lookup fails, then dropped by `filter(Boolean)`) joined
by " / " after the product name and a hyphen separator. -/
def generateVariantName (productName : String) (optionGroups : List OptionGroup)
    (options : List Selection) : String :=
  let optionNames :=
    (options.map
        (fun sel => ((lookupOption optionGroups sel).map ProductOption.name).getD "")).filter
      (fun s => s != "")
  if 0 < optionNames.length then
    productName ++ " - " ++ String.intercalate " / " optionNames
  else if productName = "" then "Variant" else productName

/-- `generateVariantSku` of the product-creation page: the product slug
(falling back to "product" when empty) followed by the selected option
codes joined by hyphens. -/
def generateVariantSku (slug : String) (optionGroups : List OptionGroup)
    (options : List Selection) : String :=
  let optionCodes :=
    (options.map
        (fun sel => ((lookupOption optionGroups sel).map ProductOption.code).getD "")).filter
      (fun s => s != "")
  let baseSlug := if slug = "" then "product" else slug
  if 0 < optionCodes.length then
    baseSlug ++ "-" ++ String.intercalate "-" optionCodes
  else baseSlug

/-- `generateVariants` of the product-creation page, as a function of the
form's product name, slug and option groups.  With no option groups it
produces the single default variant; otherwise it filters out the groups
without a valid option, returns no variants when none remain, and maps the
generated combinations to variant stubs. -/
def generateVariants (productName slug : String)
    (optionGroups : List OptionGroup) : List Variant :=
  match optionGroups with
  | [] =>
    [{ name := if productName = "" then "Default" else productName
       sku := if slug = "" then "default" else slug
       price := 0
       stockOnHand := 0
       enabled := true
       options := [] }]
  | _ :: _ =>
    let validGroups := optionGroups.filter hasValidOption
    if validGroups = [] then []
    else
      (generateCombinations validGroups).map
        (fun combination =>
          { name := generateVariantName productName optionGroups combination
            sku := generateVariantSku slug optionGroups combination
            price := 0
            stockOnHand := 0
            enabled := true
            options := combination })

/-- The whitespace class matched by the JavaScript regex `\s` (also the
character class removed by `String.prototype.trim`). -/
def isJsWhitespace (c : Char) : Bool :=
  c = ' ' || c = '\t' || c = '\n' || c = '\u000b' || c = '\u000c' || c = '\r' ||
  c = '\u00a0' || c = '\u1680' || ('\u2000' ≤ c && c ≤ '\u200a') ||
  c = '\u2028' || c = '\u2029' || c = '\u202f' || c = '\u205f' ||
  c = '\u3000' || c = '\ufeff'

/-- ASCII lower-casing, the fragment of `String.prototype.toLowerCase`
exercised by the slug pipeline. -/
def jsToLower (c : Char) : Char :=
  if 'A' ≤ c && c ≤ 'Z' then Char.ofNat (c.toNat + 32) else c

/-- The character class kept by `replace(/[^a-z0-9\s-]/g, "")`: lowercase
letters, digits, whitespace and the hyphen. -/
def isSlugKeep (c : Char) : Bool :=
  ('a' ≤ c && c ≤ 'z') || ('0' ≤ c && c ≤ '9') || isJsWhitespace c || c = '-'

/-- Single-pass model of `replace(/\s+/g, "-")`: the flag records whether
the previous character belonged to a whitespace run already replaced. -/
def collapseWhitespaceAux : Bool → List Char → List Char
  | _, [] => []
  | prevWs, c :: cs =>
    if isJsWhitespace c then
      if prevWs then collapseWhitespaceAux true cs
      else '-' :: collapseWhitespaceAux true cs
    else c :: collapseWhitespaceAux false cs

/-- `String.prototype.trim`: drop whitespace from both ends. -/
def jsTrim (l : List Char) : List Char :=
  ((l.dropWhile isJsWhitespace).reverse.dropWhile isJsWhitespace).reverse

/-- The slug transformation applied by `generateSlug` on the
product-creation page (the handler assigns `slug := generateSlug name`
when the name is non-empty):
`name.toLowerCase().replace(/[^a-z0-9\s-]/g, "").replace(/\s+/g, "-").trim()`. -/
def generateSlug (name : String) : String :=
  String.mk (jsTrim (collapseWhitespaceAux false ((name.data.map jsToLower).filter isSlugKeep)))

/-- The code transformation applied by `generateCode` on the
facet-creation page; the source text is identical to `generateSlug`. -/
def generateCode (name : String) : String :=
  String.mk (jsTrim (collapseWhitespaceAux false ((name.data.map jsToLower).filter isSlugKeep)))

/-- Replacement of each maximal whitespace run by one hyphen, written in
the run-at-a-time style of the specification sentence (every run of
consecutive whitespace characters maps to a single hyphen): on meeting a
whitespace character, emit one hyphen and skip the whole run.  The first
argument is recursion fuel, at least the length of the list. -/
def collapseRunsFuel : Nat → List Char → List Char
  | _, [] => []
  | 0, _ :: _ => []
  | n + 1, c :: cs =>
    if isJsWhitespace c then
      '-' :: collapseRunsFuel n (cs.dropWhile isJsWhitespace)
    else c :: collapseRunsFuel n cs

/-- Replacement of each maximal whitespace run by one hyphen (the length
of the list is always enough fuel). -/
def collapseRuns (l : List Char) : List Char := collapseRunsFuel l.length l

/-- The slug pipeline as the specification words it: lower-case, delete
every character that is neither a lowercase letter, a digit, whitespace
nor a hyphen, replace each run of consecutive whitespace by a single
hyphen, and trim. -/
def slugSpec (name : String) : String :=
  String.mk (jsTrim (collapseRuns ((name.data.map jsToLower).filter isSlugKeep)))

/-- Pagination state of a listing page: `{ pageIndex, pageSize }`. -/
structure TablePagination where
  pageIndex : Nat
  pageSize : Nat
deriving DecidableEq

/-- The `options` object placed in the variables of a list query:
`{ take, skip }`. -/
structure ListQueryOptions where
  take : Nat
  skip : Nat
deriving DecidableEq

/-- The variables built by `fetchProducts` on the products listing page:
`take: pageSize, skip: pageIndex * pageSize`. -/
def fetchProductsOptions (pagination : TablePagination) : ListQueryOptions :=
  { take := pagination.pageSize
    skip := pagination.pageIndex * pagination.pageSize }

/-- The variables built by `fetchOrders` on the orders listing page. -/
def fetchOrdersOptions (pagination : TablePagination) : ListQueryOptions :=
  { take := pagination.pageSize
    skip := pagination.pageIndex * pagination.pageSize }

/-- The variables built by `fetchFacets` on the attributes listing page. -/
def fetchFacetsOptions (pagination : TablePagination) : ListQueryOptions :=
  { take := pagination.pageSize
    skip := pagination.pageIndex * pagination.pageSize }

/-- A toast notification `{ title, description, color }`. -/
structure Toast where
  title : String
  description : String
  color : String
deriving DecidableEq

/-- A product row of the products listing page. -/
structure Product where
  id : String
  name : String
  slug : String
deriving DecidableEq

/-- The locally loaded state of the products listing page. -/
structure ProductsPage where
  data : List Product
  totalItems : Nat
deriving DecidableEq

/-- The outcome of the `DELETE_PRODUCT` mutation as the client observes
it: either a `{ result, message }` payload, or a thrown error (network
error or GraphQL error rejected by the client). -/
inductive DeleteProductResponse where
  | payload (result : String) (message : String)
  | thrown (message : String)
deriving DecidableEq

/-- The `deleteProduct` handler of the products listing page.  On a
`DELETED` result it toasts success and replaces the page state by the
refetched one (the awaited `fetchProducts`, passed here as an explicit
argument); on any other result or thrown error it only emits an error
toast, reusing the payload message when present. -/
def deleteProduct (st : ProductsPage) (productName : String)
    (response : DeleteProductResponse) (refetched : ProductsPage) :
    ProductsPage × List Toast :=
  match response with
  | .payload result message =>
    if result = "DELETED" then
      (refetched,
       [Toast.mk "Product deleted"
          (productName ++ " has been deleted successfully.") "success"])
    else
      (st,
       [Toast.mk "Error"
          (if message = "" then "Failed to delete product" else message) "error"])
  | .thrown message =>
    (st,
     [Toast.mk "Error"
        (if message = "" then "Failed to delete product" else message) "error"])

/-- An address form / order address. -/
structure Address where
  fullName : String
  company : String
  streetLine1 : String
  streetLine2 : String
  city : String
  province : String
  postalCode : String
  countryCode : String
  phoneNumber : String
deriving DecidableEq

/-- The customer form of the order-creation page. -/
structure CustomerForm where
  firstName : String
  lastName : String
  emailAddress : String
  phoneNumber : String
deriving DecidableEq

/-- One line of a draft order, reduced to the fields the page reads. -/
structure OrderLine where
  id : String
  productVariantId : String
  quantity : Nat
deriving DecidableEq

/-- The draft-order aggregate mirrored locally by the order-creation
page, reduced to the fields its handlers read. -/
structure DraftOrder where
  id : String
  lines : List OrderLine
  shippingAddress : Option Address
deriving DecidableEq

/-- The GraphQL mutations the order-creation page can issue. -/
inductive GqlRequest where
  | createDraftOrder
  | addItemToDraftOrder (orderId : String) (productVariantId : String) (quantity : Nat)
  | removeDraftOrderLine (orderId : String) (orderLineId : String)
  | setCustomerForDraftOrder (orderId : String) (input : CustomerForm)
  | setDraftOrderShippingAddress (orderId : String) (input : Address)
  | setDraftOrderBillingAddress (orderId : String) (input : Address)
  | transitionOrderToState (id : String) (state : String)
deriving DecidableEq

/-- The truthy access `draftOrder.value?.id` guarding every handler. -/
def draftOrderId (draftOrder : Option DraftOrder) : Option String :=
  match draftOrder with
  | some o => if o.id = "" then none else some o.id
  | none => none

/-- `isVariantInOrder` of the order-creation page:
`draftOrder.value?.lines?.some((line) => line.productVariant?.id === variantId) || false`. -/
def isVariantInOrder (draftOrder : Option DraftOrder) (variantId : String) : Bool :=
  match draftOrder with
  | some o => o.lines.any (fun line => line.productVariantId == variantId)
  | none => false

/-- The `addItemToOrder` handler.  The remote outcome is passed as an
explicit argument: `Except.ok` carries `data?.addItemToDraftOrder` (which
the handler stores wholesale), `Except.error` is the caught rejection.
The handler returns the new `draftOrder` state, the emitted toasts and
the issued requests. -/
def addItemToOrder (draftOrder : Option DraftOrder)
    (productVariantId variantName : String)
    (response : Except String (Option DraftOrder)) :
    Option DraftOrder × List Toast × List GqlRequest :=
  match draftOrderId draftOrder with
  | none => (draftOrder, [Toast.mk "Error" "No draft order available" "error"], [])
  | some orderId =>
    if isVariantInOrder draftOrder productVariantId then
      (draftOrder, [Toast.mk "Info" "This item is already in the order" "info"], [])
    else
      match response with
      | .ok newOrder =>
        (newOrder,
         [Toast.mk "Success" (variantName ++ " added to order") "success"],
         [GqlRequest.addItemToDraftOrder orderId productVariantId 1])
      | .error _ =>
        (draftOrder,
         [Toast.mk "Error" "Failed to add item to order" "error"],
         [GqlRequest.addItemToDraftOrder orderId productVariantId 1])

/-- The requests issued by `completeOrder` ("Complete Order"): a single
`transitionOrderToState` to `ArrangingPayment`, guarded by
`draftOrder.value?.id`. -/
def completeOrder (draftOrder : Option DraftOrder) : List GqlRequest :=
  match draftOrderId draftOrder with
  | none => []
  | some orderId => [GqlRequest.transitionOrderToState orderId "ArrangingPayment"]

/-- The local validation of `saveCustomer`: first name, last name and
email address are required. -/
def customerFormValid (f : CustomerForm) : Bool :=
  f.firstName != "" && f.lastName != "" && f.emailAddress != ""

/-- The local validation of `saveShippingAddress` / `saveBillingAddress`. -/
def addressFormValid (f : Address) : Bool :=
  f.fullName != "" && f.streetLine1 != "" && f.city != "" &&
  f.province != "" && f.postalCode != "" && f.countryCode != ""

/-- The user-triggered handlers of the order-creation page that can issue
mutations. -/
inductive PageAction where
  | startOrder
  | addItem (productVariantId : String) (variantName : String)
  | removeItem (orderLineId : String)
  | saveCustomer (form : CustomerForm)
  | saveShippingAddress (form : Address)
  | saveBillingAddress (form : Address)
  | copyShippingToBilling
  | finishOrder
deriving DecidableEq

/-- The mutations issued by each handler of the order-creation page, as a
function of the current draft-order state: `onMounted` creates the draft
order, `addItemToOrder` adds a line when the variant is not present yet,
`removeItemFromOrder` removes a line, the three save handlers set
customer and addresses after local validation, `copyShippingToBilling`
copies the shipping address, and `completeOrder` transitions the order. -/
def pageRequests (draftOrder : Option DraftOrder) : PageAction → List GqlRequest
  | .startOrder => [GqlRequest.createDraftOrder]
  | .addItem productVariantId _ =>
    match draftOrderId draftOrder with
    | none => []
    | some orderId =>
      if isVariantInOrder draftOrder productVariantId then []
      else [GqlRequest.addItemToDraftOrder orderId productVariantId 1]
  | .removeItem orderLineId =>
    match draftOrderId draftOrder with
    | none => []
    | some orderId => [GqlRequest.removeDraftOrderLine orderId orderLineId]
  | .saveCustomer form =>
    match draftOrderId draftOrder with
    | none => []
    | some orderId =>
      if customerFormValid form then [GqlRequest.setCustomerForDraftOrder orderId form]
      else []
  | .saveShippingAddress form =>
    match draftOrderId draftOrder with
    | none => []
    | some orderId =>
      if addressFormValid form then [GqlRequest.setDraftOrderShippingAddress orderId form]
      else []
  | .saveBillingAddress form =>
    match draftOrderId draftOrder with
    | none => []
    | some orderId =>
      if addressFormValid form then [GqlRequest.setDraftOrderBillingAddress orderId form]
      else []
  | .copyShippingToBilling =>
    match draftOrder with
    | none => []
    | some o =>
      match o.shippingAddress with
      | none => []
      | some addr => [GqlRequest.setDraftOrderBillingAddress o.id addr]
  | .finishOrder => completeOrder draftOrder

/-- Sample option "Small" of the Size group. -/
def sizeSmall : ProductOption := ProductOption.mk "o1" "Small" "s"

/-- Sample option "Medium" of the Size group. -/
def sizeMedium : ProductOption := ProductOption.mk "o2" "Medium" "m"

/-- Sample option "Red" of the Color group. -/
def colorRed : ProductOption := ProductOption.mk "o3" "Red" "red"

/-- Sample Size group with two valid options. -/
def sizeGroup : OptionGroup := OptionGroup.mk "g1" "Size" "size" [sizeSmall, sizeMedium]

/-- Sample Color group with one valid option. -/
def colorGroup : OptionGroup := OptionGroup.mk "g2" "Color" "color" [colorRed]

/-- Sample group holding no options at all. -/
def emptyGroup : OptionGroup := OptionGroup.mk "g3" "Material" "material" []

/-- Sample draft order holding one line for variant "v1". -/
def sampleOrder : DraftOrder :=
  DraftOrder.mk "order1" [OrderLine.mk "line1" "v1" 1] none

/-- Sample products-page state. -/
def samplePage : ProductsPage := ProductsPage.mk [] 0

/-- The first variant generated over the sample Size and Color groups. -/
def sampleVariant : Variant :=
  Variant.mk "Shirt - Small / Red" "shirt-s-red" 0 0 true
    [Selection.mk "g1" "o1", Selection.mk "g2" "o3"]

theorem length_flatMap_map {α β γ : Type} (l : List α) (m : List β) (f : α → β → γ) :
    (l.flatMap (fun a => m.map (f a))).length = l.length * m.length := by
  induction l with
  | nil => simp
  | cons a t ih =>
    rw [List.flatMap_cons, List.length_append, List.length_map, ih, List.length_cons,
      Nat.succ_mul, Nat.add_comm]

theorem exists_of_mem_zipWith {α β γ : Type} {f : α → β → γ} :
    ∀ {as : List α} {bs : List β} {c : γ}, c ∈ List.zipWith f as bs →
      ∃ a ∈ as, ∃ b ∈ bs, c = f a b := by
  intro as
  induction as with
  | nil => intro bs c h; simp at h
  | cons a t ih =>
    intro bs c h
    cases bs with
    | nil => simp at h
    | cons b tb =>
      rw [List.zipWith_cons_cons] at h
      rcases List.mem_cons.mp h with h | h
      · exact ⟨a, List.mem_cons_self a t, b, List.mem_cons_self b tb, h⟩
      · rcases ih h with ⟨a2, ha, b2, hb, hc⟩
        exact ⟨a2, List.mem_cons_of_mem a ha, b2, List.mem_cons_of_mem b hb, hc⟩

theorem exists_rel_of_forall₂_mem_right {α β : Type} {R : α → β → Prop} :
    ∀ {l₁ : List α} {l₂ : List β}, List.Forall₂ R l₁ l₂ →
      ∀ {b : β}, b ∈ l₂ → ∃ a ∈ l₁, R a b := by
  intro l₁ l₂ h
  induction h with
  | nil => intro b hb; simp at hb
  | cons h₁ h₂ ih =>
    intro b hb
    rcases List.mem_cons.mp hb with rfl | hb
    · exact ⟨_, List.mem_cons_self _ _, h₁⟩
    · rcases ih hb with ⟨a, ha, hr⟩
      exact ⟨a, List.mem_cons_of_mem _ ha, hr⟩

theorem generateCombinations_length :
    ∀ (groups : List OptionGroup), groups ≠ [] →
      (generateCombinations groups).length =
        (groups.map (fun g => (g.options.filter isValidOption).length)).prod := by
  intro groups
  induction groups with
  | nil => intro h; exact absurd rfl h
  | cons g rest ih =>
    intro _
    cases rest with
    | nil => simp [generateCombinations]
    | cons g2 rest2 =>
      simp only [generateCombinations]
      rw [length_flatMap_map, List.map_cons, List.prod_cons,
        ih (List.cons_ne_nil g2 rest2)]

theorem generateCombinations_shape :
    ∀ (groups : List OptionGroup) (combo : List Selection),
      combo ∈ generateCombinations groups →
      ∃ opts : List ProductOption,
        List.Forall₂ (fun g o => o ∈ g.options ∧ isValidOption o = true) groups opts ∧
        combo = List.zipWith (fun g o => Selection.mk g.id o.id) groups opts := by
  intro groups
  induction groups with
  | nil => intro combo h; simp [generateCombinations] at h
  | cons g rest ih =>
    intro combo h
    cases rest with
    | nil =>
      simp only [generateCombinations] at h
      rcases List.mem_map.mp h with ⟨o, ho, rfl⟩
      rcases List.mem_filter.mp ho with ⟨homem, hvalid⟩
      exact ⟨[o], List.Forall₂.cons ⟨homem, hvalid⟩ List.Forall₂.nil, rfl⟩
    | cons g2 rest2 =>
      simp only [generateCombinations] at h
      rcases List.mem_flatMap.mp h with ⟨o, ho, hmem⟩
      rcases List.mem_map.mp hmem with ⟨rc, hrc, rfl⟩
      rcases List.mem_filter.mp ho with ⟨homem, hvalid⟩
      rcases ih rc hrc with ⟨opts, hforall, rfl⟩
      exact ⟨o :: opts, List.Forall₂.cons ⟨homem, hvalid⟩ hforall, rfl⟩

theorem filter_hasValidOption_eq_self {groups : List OptionGroup}
    (hne : ∀ g ∈ groups, g.options ≠ [])
    (hval : ∀ g ∈ groups, ∀ o ∈ g.options, isValidOption o = true) :
    groups.filter hasValidOption = groups := by
  apply List.filter_eq_self.mpr
  intro g hg
  rcases List.exists_mem_of_ne_nil g.options (hne g hg) with ⟨o, ho⟩
  exact List.any_eq_true.mpr ⟨o, ho, hval g hg o ho⟩

/-- C1 (amended: each group must hold at least one option; the claim as
stated fails when a group is empty, see the counterexample): for option
groups that each hold at least one option, all options valid,
`generateVariants` produces exactly the product of the group sizes, and
every variant selects exactly one option per group, in group order. -/
theorem variant_count_product_of_valid_groups
    (productName slug : String) (groups : List OptionGroup)
    (hne : ∀ g ∈ groups, g.options ≠ [])
    (hval : ∀ g ∈ groups, ∀ o ∈ g.options, isValidOption o = true) :
    (generateVariants productName slug groups).length =
      (groups.map (fun g => g.options.length)).prod ∧
    ∀ v ∈ generateVariants productName slug groups,
      v.options.length = groups.length ∧
      ∃ opts : List ProductOption,
        List.Forall₂ (fun g o => o ∈ g.options) groups opts ∧
        v.options = List.zipWith (fun g o => Selection.mk g.id o.id) groups opts := by
  cases groups with
  | nil =>
    constructor
    · simp [generateVariants]
    · intro v hv
      simp only [generateVariants, List.mem_singleton] at hv
      subst hv
      exact ⟨rfl, [], List.Forall₂.nil, rfl⟩
  | cons g rest =>
    have hfilter : (g :: rest).filter hasValidOption = g :: rest :=
      filter_hasValidOption_eq_self hne hval
    have hoptfilter : ∀ g2 ∈ g :: rest, (fun g3 => (g3.options.filter isValidOption).length) g2 =
        (fun g3 => g3.options.length) g2 := by
      intro g2 hg2
      simp only []
      rw [List.filter_eq_self.mpr (hval g2 hg2)]
    constructor
    · simp only [generateVariants, hfilter]
      rw [if_neg (List.cons_ne_nil g rest), List.length_map,
        generateCombinations_length (g :: rest) (List.cons_ne_nil g rest),
        List.map_congr_left hoptfilter]
    · intro v hv
      simp only [generateVariants, hfilter] at hv
      rw [if_neg (List.cons_ne_nil g rest)] at hv
      rcases List.mem_map.mp hv with ⟨combo, hcombo, rfl⟩
      rcases generateCombinations_shape (g :: rest) combo hcombo with ⟨opts, hforall, rfl⟩
      have hlen := hforall.length_eq
      refine ⟨?_, opts, hforall.imp (fun a b h => h.1), rfl⟩
      rw [List.length_zipWith, ← hlen, Nat.min_self]

/-- C1 counterexample: a group holding no options vacuously contains only
valid options; the claim then predicts `2 * 0 = 0` variants with two
selections each, but the generator filters the empty group out and
produces two variants of one selection each. -/
theorem variant_count_claim_counterexample :
    (∀ g ∈ [sizeGroup, emptyGroup], ∀ o ∈ g.options, isValidOption o = true) ∧
    ([sizeGroup, emptyGroup].map (fun g => g.options.length)).prod = 0 ∧
    (generateVariants "Shirt" "shirt" [sizeGroup, emptyGroup]).length = 2 ∧
    ∃ v ∈ generateVariants "Shirt" "shirt" [sizeGroup, emptyGroup],
      v.options.length ≠ ([sizeGroup, emptyGroup] : List OptionGroup).length := by
  decide

/-- Witness for C1 at the sample Size and Color groups. -/
theorem variant_count_product_witness :
    (generateVariants "Shirt" "shirt" [sizeGroup, colorGroup]).length =
      ([sizeGroup, colorGroup].map (fun g => g.options.length)).prod ∧
    ∀ v ∈ generateVariants "Shirt" "shirt" [sizeGroup, colorGroup],
      v.options.length = ([sizeGroup, colorGroup] : List OptionGroup).length ∧
      ∃ opts : List ProductOption,
        List.Forall₂ (fun g o => o ∈ g.options) [sizeGroup, colorGroup] opts ∧
        v.options = List.zipWith (fun g o => Selection.mk g.id o.id) [sizeGroup, colorGroup] opts :=
  variant_count_product_of_valid_groups "Shirt" "shirt" [sizeGroup, colorGroup]
    (by decide) (by decide)

/-- C2: an option group with no valid option is excluded from the product
entirely (the generated selection lists are exactly the combinations over
the remaining groups), so, the group ids being distinct as produced by
`generateId`, no generated variant selects from the excluded group. -/
theorem invalid_groups_excluded
    (productName slug : String) (groups : List OptionGroup)
    (hex : ∃ g ∈ groups, hasValidOption g = false)
    (hids : (groups.map OptionGroup.id).Nodup) :
    (generateVariants productName slug groups).map Variant.options =
      generateCombinations (groups.filter hasValidOption) ∧
    ∀ g ∈ groups, hasValidOption g = false →
      ∀ v ∈ generateVariants productName slug groups,
        ∀ sel ∈ v.options, sel.optionGroupId ≠ g.id := by
  cases groups with
  | nil =>
    rcases hex with ⟨g, hg, _⟩
    simp at hg
  | cons a rest =>
    by_cases hv : (a :: rest).filter hasValidOption = []
    · constructor
      · simp [generateVariants, hv, generateCombinations]
      · intro g hg hgval v hvmem
        simp [generateVariants, hv] at hvmem
    · constructor
      · simp only [generateVariants]
        rw [if_neg hv, List.map_map]
        have : (Variant.options ∘ fun combination =>
            Variant.mk (generateVariantName productName (a :: rest) combination)
              (generateVariantSku slug (a :: rest) combination) 0 0 true combination) =
            fun combination => combination := rfl
        rw [this]
        exact List.map_id' _
      · intro g hg hgval v hvmem sel hsel hideq
        simp only [generateVariants] at hvmem
        rw [if_neg hv] at hvmem
        rcases List.mem_map.mp hvmem with ⟨combo, hcombo, rfl⟩
        rcases generateCombinations_shape _ combo hcombo with ⟨opts, hforall, rfl⟩
        rcases exists_of_mem_zipWith hsel with ⟨g2, hg2, o, ho, rfl⟩
        have hg2f := List.mem_filter.mp hg2
        have : g2 = g :=
          List.inj_on_of_nodup_map hids hg2f.1 hg hideq
        rw [this] at hg2f
        rw [hg2f.2] at hgval
        exact Bool.true_eq_false.mp hgval

/-- Witness for C2: the empty Material group is excluded and no selection
carries its id. -/
theorem invalid_groups_excluded_witness :
    ((generateVariants "Shirt" "shirt" [sizeGroup, emptyGroup]).map Variant.options =
      generateCombinations ([sizeGroup, emptyGroup].filter hasValidOption)) ∧
    ∀ g ∈ [sizeGroup, emptyGroup], hasValidOption g = false →
      ∀ v ∈ generateVariants "Shirt" "shirt" [sizeGroup, emptyGroup],
        ∀ sel ∈ v.options, sel.optionGroupId ≠ g.id :=
  invalid_groups_excluded "Shirt" "shirt" [sizeGroup, emptyGroup]
    ⟨emptyGroup, by decide, by decide⟩ (by decide)

/-- C3 counterexample: with an empty product name the single variant
produced for an empty option-group list is named "Default", not after the
product. -/
theorem empty_groups_name_counterexample :
    (generateVariants "" "p" []).map Variant.name = ["Default"] ∧
    ∀ v ∈ generateVariants "" "p" [], v.name ≠ "" := by
  decide

/-- C3 (amended: the variant is named after the product only when the
product name is non-empty, the generator falls back to "Default"
otherwise): with no option groups, `generateVariants` produces exactly
one variant, named after the product, with an empty options list. -/
theorem empty_groups_single_default_variant
    (productName slug : String) (h : productName ≠ "") :
    (generateVariants productName slug []).length = 1 ∧
    ∀ v ∈ generateVariants productName slug [],
      v.name = productName ∧ v.options = [] := by
  constructor
  · simp [generateVariants]
  · intro v hv
    simp only [generateVariants, List.mem_singleton] at hv
    subst hv
    simp [h]

/-- Witness for C3 at the product name "Shirt". -/
theorem empty_groups_single_default_variant_witness :
    (generateVariants "Shirt" "shirt" []).length = 1 ∧
    ∀ v ∈ generateVariants "Shirt" "shirt" [],
      v.name = "Shirt" ∧ v.options = [] :=
  empty_groups_single_default_variant "Shirt" "shirt" (by decide)

theorem find?_eq_some_of_nodup_map {α β : Type} [BEq β] [LawfulBEq β] (f : α → β) :
    ∀ (l : List α), (l.map f).Nodup → ∀ a ∈ l,
      l.find? (fun x => f x == f a) = some a := by
  intro l
  induction l with
  | nil => intro _ a ha; simp at ha
  | cons b t ih =>
    intro hnd a ha
    rw [List.map_cons, List.nodup_cons] at hnd
    rcases List.mem_cons.mp ha with rfl | hat
    · exact List.find?_cons_of_pos t (beq_self_eq_true (f a))
    · have hne : (f b == f a) = false := by
        apply beq_eq_false_iff_ne.mpr
        intro heq
        exact hnd.1 (heq ▸ List.mem_map_of_mem f hat)
      rw [List.find?_cons_of_neg t (by simp [hne])]
      exact ih hnd.2 a hat

theorem lookupOption_resolves {groups : List OptionGroup}
    (hg : (groups.map OptionGroup.id).Nodup)
    {g : OptionGroup} (hmem : g ∈ groups)
    (ho : (g.options.map ProductOption.id).Nodup)
    {o : ProductOption} (homem : o ∈ g.options) :
    lookupOption groups (Selection.mk g.id o.id) = some o := by
  unfold lookupOption
  rw [find?_eq_some_of_nodup_map OptionGroup.id groups hg g hmem]
  exact find?_eq_some_of_nodup_map ProductOption.id g.options ho o homem

theorem map_lookup_field (groups : List OptionGroup)
    (hg : (groups.map OptionGroup.id).Nodup)
    (hoAll : ∀ g ∈ groups, (g.options.map ProductOption.id).Nodup)
    (f : ProductOption → String) :
    ∀ (gs : List OptionGroup) (os : List ProductOption),
      List.Forall₂ (fun g o => o ∈ g.options) gs os →
      (∀ g ∈ gs, g ∈ groups) →
      (List.zipWith (fun g o => Selection.mk g.id o.id) gs os).map
          (fun sel => ((lookupOption groups sel).map f).getD "") = os.map f := by
  intro gs os hf
  induction hf with
  | nil => intro _; simp
  | @cons g o gs2 os2 h1 h2 ih =>
    intro hsub
    rw [List.zipWith_cons_cons, List.map_cons, List.map_cons]
    have hg2 : g ∈ groups := hsub g (List.mem_cons_self g gs2)
    rw [lookupOption_resolves hg hg2 (hoAll g hg2) h1]
    rw [ih (fun g2 hmem => hsub g2 (List.mem_cons_of_mem g hmem))]
    rfl

/-- C4 counterexample: with an empty product slug the generated sku
starts with the fallback "product", not with the slug as the claim's
format string asserts. -/
theorem variant_sku_empty_slug_counterexample :
    (generateVariants "Shirt" "" [colorGroup]).map Variant.sku = ["product-red"] ∧
    ("product-red" : String) ≠ "" ++ "-" ++ "red" := by
  decide

/-- C4 (amended: the slug must be non-empty, the generator substitutes
"product" otherwise, see the counterexample; the generated ids are
assumed distinct as `generateId` produces them): every variant produced
over non-empty all-valid option groups is named
productName - name1 / name2 / ... and has sku slug-code1-code2-..., the
names and codes being those of the selected options in group order. -/
theorem variant_name_sku_format
    (productName slug : String) (groups : List OptionGroup)
    (hslug : slug ≠ "")
    (hgroups : groups ≠ [])
    (hne : ∀ g ∈ groups, g.options ≠ [])
    (hval : ∀ g ∈ groups, ∀ o ∈ g.options, isValidOption o = true)
    (hgids : (groups.map OptionGroup.id).Nodup)
    (hoids : ∀ g ∈ groups, (g.options.map ProductOption.id).Nodup) :
    ∀ v ∈ generateVariants productName slug groups,
      ∃ opts : List ProductOption,
        List.Forall₂ (fun g o => o ∈ g.options) groups opts ∧
        v.options = List.zipWith (fun g o => Selection.mk g.id o.id) groups opts ∧
        v.name = productName ++ " - " ++ String.intercalate " / " (opts.map ProductOption.name) ∧
        v.sku = slug ++ "-" ++ String.intercalate "-" (opts.map ProductOption.code) := by
  cases groups with
  | nil => exact absurd rfl hgroups
  | cons a rest =>
    intro v hv
    have hfilter : (a :: rest).filter hasValidOption = a :: rest :=
      filter_hasValidOption_eq_self hne hval
    simp only [generateVariants, hfilter] at hv
    rw [if_neg (List.cons_ne_nil a rest)] at hv
    rcases List.mem_map.mp hv with ⟨combo, hcombo, rfl⟩
    rcases generateCombinations_shape (a :: rest) combo hcombo with ⟨opts, hforall, rfl⟩
    have hmem : List.Forall₂ (fun g o => o ∈ g.options) (a :: rest) opts :=
      hforall.imp (fun g o h => h.1)
    have hnames : (List.zipWith (fun g o => Selection.mk g.id o.id) (a :: rest) opts).map
        (fun sel => ((lookupOption (a :: rest) sel).map ProductOption.name).getD "") =
        opts.map ProductOption.name :=
      map_lookup_field (a :: rest) hgids hoids ProductOption.name (a :: rest) opts hmem
        (fun g hg => hg)
    have hcodes : (List.zipWith (fun g o => Selection.mk g.id o.id) (a :: rest) opts).map
        (fun sel => ((lookupOption (a :: rest) sel).map ProductOption.code).getD "") =
        opts.map ProductOption.code :=
      map_lookup_field (a :: rest) hgids hoids ProductOption.code (a :: rest) opts hmem
        (fun g hg => hg)
    have hvalidall : ∀ o ∈ opts, isValidOption o = true := by
      intro o ho
      rcases exists_rel_of_forall₂_mem_right hforall ho with ⟨g, hg, hrel⟩
      exact hrel.2
    have hnamene : ∀ s ∈ opts.map ProductOption.name, (s != "") = true := by
      intro s hs
      rcases List.mem_map.mp hs with ⟨o, ho, rfl⟩
      have h2 := hvalidall o ho
      simp only [isValidOption, Bool.and_eq_true] at h2
      exact h2.1
    have hcodene : ∀ s ∈ opts.map ProductOption.code, (s != "") = true := by
      intro s hs
      rcases List.mem_map.mp hs with ⟨o, ho, rfl⟩
      have h2 := hvalidall o ho
      simp only [isValidOption, Bool.and_eq_true] at h2
      exact h2.2
    have hlen : opts.length = rest.length + 1 := by
      have := hforall.length_eq
      simpa using this.symm
    refine ⟨opts, hmem, rfl, ?_, ?_⟩
    · show generateVariantName productName (a :: rest)
        (List.zipWith (fun g o => Selection.mk g.id o.id) (a :: rest) opts) = _
      unfold generateVariantName
      rw [hnames, List.filter_eq_self.mpr hnamene]
      rw [if_pos]
      rw [List.length_map, hlen]
      exact Nat.succ_pos rest.length
    · show generateVariantSku slug (a :: rest)
        (List.zipWith (fun g o => Selection.mk g.id o.id) (a :: rest) opts) = _
      unfold generateVariantSku
      rw [hcodes, List.filter_eq_self.mpr hcodene]
      rw [if_neg hslug, if_pos]
      rw [List.length_map, hlen]
      exact Nat.succ_pos rest.length

/-- Witness for C4 at the first variant generated over the sample Size
and Color groups. -/
theorem variant_name_sku_format_witness :
    sampleVariant ∈ generateVariants "Shirt" "shirt" [sizeGroup, colorGroup] ∧
    ∃ opts : List ProductOption,
      List.Forall₂ (fun g o => o ∈ g.options) [sizeGroup, colorGroup] opts ∧
      sampleVariant.options =
        List.zipWith (fun g o => Selection.mk g.id o.id) [sizeGroup, colorGroup] opts ∧
      sampleVariant.name =
        "Shirt" ++ " - " ++ String.intercalate " / " (opts.map ProductOption.name) ∧
      sampleVariant.sku =
        "shirt" ++ "-" ++ String.intercalate "-" (opts.map ProductOption.code) :=
  ⟨by decide,
   variant_name_sku_format "Shirt" "shirt" [sizeGroup, colorGroup]
     (by decide) (by decide) (by decide) (by decide) (by decide) (by decide)
     sampleVariant (by decide)⟩


theorem collapseWhitespaceAux_true (l : List Char) :
    collapseWhitespaceAux true l = collapseWhitespaceAux false (l.dropWhile isJsWhitespace) := by
  induction l with
  | nil => rfl
  | cons c cs ih =>
    by_cases h : isJsWhitespace c = true
    · simp [collapseWhitespaceAux, List.dropWhile_cons, h, ih]
    · simp [collapseWhitespaceAux, List.dropWhile_cons, h]

theorem collapseWhitespaceAux_false_eq_collapseRunsFuel :
    ∀ (n : Nat) (l : List Char), l.length ≤ n →
      collapseWhitespaceAux false l = collapseRunsFuel n l := by
  intro n
  induction n with
  | zero =>
    intro l hl
    rw [Nat.le_zero, List.length_eq_zero] at hl
    subst hl
    rfl
  | succ n ih =>
    intro l hl
    cases l with
    | nil => rfl
    | cons c cs =>
      rw [List.length_cons, Nat.succ_le_succ_iff] at hl
      by_cases h : isJsWhitespace c = true
      · rw [show collapseRunsFuel (n + 1) (c :: cs) =
            '-' :: collapseRunsFuel n (cs.dropWhile isJsWhitespace) by
          simp [collapseRunsFuel, h]]
        rw [show collapseWhitespaceAux false (c :: cs) =
            '-' :: collapseWhitespaceAux true cs by simp [collapseWhitespaceAux, h]]
        rw [collapseWhitespaceAux_true]
        rw [ih _ (le_trans (List.Sublist.length_le (List.dropWhile_sublist _)) hl)]
      · rw [show collapseRunsFuel (n + 1) (c :: cs) =
            c :: collapseRunsFuel n cs by simp [collapseRunsFuel, h]]
        rw [show collapseWhitespaceAux false (c :: cs) =
            c :: collapseWhitespaceAux false cs by simp [collapseWhitespaceAux, h]]
        rw [ih cs hl]

theorem collapseWhitespaceAux_false_eq_collapseRuns (l : List Char) :
    collapseWhitespaceAux false l = collapseRuns l :=
  collapseWhitespaceAux_false_eq_collapseRunsFuel l.length l (Nat.le_refl _)

theorem mem_collapseWhitespaceAux :
    ∀ (b : Bool) (l : List Char) (c : Char), c ∈ collapseWhitespaceAux b l →
      c = '-' ∨ (c ∈ l ∧ isJsWhitespace c = false) := by
  intro b l
  induction l generalizing b with
  | nil => intro c h; simp [collapseWhitespaceAux] at h
  | cons d ds ih =>
    intro c h
    by_cases hd : isJsWhitespace d = true
    · cases b with
      | true =>
        rw [show collapseWhitespaceAux true (d :: ds) = collapseWhitespaceAux true ds by
          simp [collapseWhitespaceAux, hd]] at h
        rcases ih true c h with h1 | h2
        · exact Or.inl h1
        · exact Or.inr ⟨List.mem_cons_of_mem d h2.1, h2.2⟩
      | false =>
        rw [show collapseWhitespaceAux false (d :: ds) =
            '-' :: collapseWhitespaceAux true ds by simp [collapseWhitespaceAux, hd]] at h
        rcases List.mem_cons.mp h with rfl | h
        · exact Or.inl rfl
        · rcases ih true c h with h1 | h2
          · exact Or.inl h1
          · exact Or.inr ⟨List.mem_cons_of_mem d h2.1, h2.2⟩
    · rw [show collapseWhitespaceAux b (d :: ds) =
          d :: collapseWhitespaceAux false ds by simp [collapseWhitespaceAux, hd]] at h
      simp only [Bool.not_eq_true] at hd
      rcases List.mem_cons.mp h with rfl | h
      · exact Or.inr ⟨List.mem_cons_self c ds, hd⟩
      · rcases ih false c h with h1 | h2
        · exact Or.inl h1
        · exact Or.inr ⟨List.mem_cons_of_mem d h2.1, h2.2⟩

theorem mem_jsTrim {l : List Char} {c : Char} (h : c ∈ jsTrim l) : c ∈ l := by
  unfold jsTrim at h
  rw [List.mem_reverse] at h
  have h2 := (List.dropWhile_sublist isJsWhitespace).subset h
  rw [List.mem_reverse] at h2
  exact (List.dropWhile_sublist isJsWhitespace).subset h2

theorem generateSlug_chars (name : String) :
    ∀ c ∈ (generateSlug name).data, isSlugKeep c = true ∧ isJsWhitespace c = false := by
  intro c hc
  have hc2 : c ∈ jsTrim (collapseWhitespaceAux false
      ((name.data.map jsToLower).filter isSlugKeep)) := hc
  have hc3 := mem_jsTrim hc2
  rcases mem_collapseWhitespaceAux false _ c hc3 with rfl | ⟨hmem, hws⟩
  · exact ⟨by decide, by decide⟩
  · exact ⟨(List.mem_filter.mp hmem).2, hws⟩

theorem charset_of_keep_not_ws {c : Char} (hk : isSlugKeep c = true)
    (hw : isJsWhitespace c = false) :
    ('a' ≤ c ∧ c ≤ 'z') ∨ ('0' ≤ c ∧ c ≤ '9') ∨ c = '-' := by
  simp only [isSlugKeep, Bool.or_eq_true, Bool.and_eq_true, decide_eq_true_eq] at hk
  rcases hk with ((h | h) | h) | h
  · exact Or.inl h
  · exact Or.inr (Or.inl h)
  · rw [hw] at h; simp at h
  · exact Or.inr (Or.inr h)

theorem jsToLower_eq_self {c : Char}
    (h : ('a' ≤ c ∧ c ≤ 'z') ∨ ('0' ≤ c ∧ c ≤ '9') ∨ c = '-') :
    jsToLower c = c := by
  unfold jsToLower
  rw [if_neg]
  simp only [Bool.and_eq_true, decide_eq_true_eq, not_and]
  intro hA
  rcases h with ⟨h1, _⟩ | ⟨_, h2⟩ | rfl
  · exact not_le.mpr (lt_of_lt_of_le (by decide : ('Z' : Char) < 'a') h1)
  · exact absurd (le_trans hA h2) (by decide)
  · exact absurd hA (by decide)

theorem collapseWhitespaceAux_eq_self {l : List Char}
    (h : ∀ c ∈ l, isJsWhitespace c = false) :
    collapseWhitespaceAux false l = l := by
  induction l with
  | nil => rfl
  | cons c cs ih =>
    have hc := h c (List.mem_cons_self c cs)
    rw [show collapseWhitespaceAux false (c :: cs) =
        c :: collapseWhitespaceAux false cs by simp [collapseWhitespaceAux, hc]]
    rw [ih (fun d hd => h d (List.mem_cons_of_mem c hd))]

theorem dropWhile_eq_self_of_all_false {p : Char → Bool} {l : List Char}
    (h : ∀ c ∈ l, p c = false) : l.dropWhile p = l := by
  cases l with
  | nil => rfl
  | cons c cs =>
    rw [List.dropWhile_cons]
    simp [h c (List.mem_cons_self c cs)]

theorem jsTrim_eq_self {l : List Char} (h : ∀ c ∈ l, isJsWhitespace c = false) :
    jsTrim l = l := by
  unfold jsTrim
  rw [dropWhile_eq_self_of_all_false h]
  rw [dropWhile_eq_self_of_all_false (fun c hc => h c (List.mem_reverse.mp hc))]
  exact List.reverse_reverse l

/-- C5 counterexample: the non-alphanumeric character in "a!b" is removed
(the slug is "ab"), not collapsed to a hyphen as the claim predicts. -/
theorem slug_nonalnum_counterexample :
    generateSlug "a!b" = "ab" ∧ generateSlug "a!b" ≠ "a-b" := by
  decide

/-- C5 (amended: a non-alphanumeric character that is not whitespace or a
hyphen is removed, not mapped to a hyphen, see the counterexample; runs
of whitespace do map to a single hyphen): the slug/code transformation
equals the pipeline that deletes every character outside lowercase
alphanumerics, whitespace and hyphen and replaces each maximal
whitespace run by one hyphen, and its output is lowercase alphanumeric
or hyphen only. -/
theorem slug_removes_and_collapses (name : String) :
    generateSlug name = slugSpec name ∧
    generateCode name = slugSpec name ∧
    ∀ c ∈ (generateSlug name).data,
      ('a' ≤ c ∧ c ≤ 'z') ∨ ('0' ≤ c ∧ c ≤ '9') ∨ c = '-' := by
  refine ⟨?_, ?_, ?_⟩
  · unfold generateSlug slugSpec
    rw [collapseWhitespaceAux_false_eq_collapseRuns]
  · unfold generateCode slugSpec
    rw [collapseWhitespaceAux_false_eq_collapseRuns]
  · intro c hc
    exact charset_of_keep_not_ws (generateSlug_chars name c hc).1
      (generateSlug_chars name c hc).2

/-- Witness for C5 at the name "Hello  World!". -/
theorem slug_removes_and_collapses_witness :
    generateSlug "Hello  World!" = slugSpec "Hello  World!" ∧
    generateCode "Hello  World!" = slugSpec "Hello  World!" ∧
    ∀ c ∈ (generateSlug "Hello  World!").data,
      ('a' ≤ c ∧ c ≤ 'z') ∨ ('0' ≤ c ∧ c ≤ '9') ∨ c = '-' :=
  slug_removes_and_collapses "Hello  World!"

/-- C6: the slug/code generation is idempotent: re-applying the
transformation to an already generated slug or code leaves it unchanged
(and the transformation is a function of the name alone, so generating
twice from the same name trivially yields the same slug). -/
theorem slug_generation_idempotent (name : String) :
    generateSlug (generateSlug name) = generateSlug name ∧
    generateCode (generateCode name) = generateCode name := by
  have key : ∀ s : String,
      (∀ c ∈ s.data, isSlugKeep c = true ∧ isJsWhitespace c = false) →
      generateSlug s = s := by
    intro s hs
    unfold generateSlug
    have hmap : List.map jsToLower s.data = s.data := by
      rw [List.map_congr_left
        (fun c hc => (jsToLower_eq_self
          (charset_of_keep_not_ws (hs c hc).1 (hs c hc).2) : jsToLower c = id c))]
      exact List.map_id s.data
    rw [hmap]
    rw [List.filter_eq_self.mpr (fun c hc => (hs c hc).1)]
    rw [collapseWhitespaceAux_eq_self (fun c hc => (hs c hc).2)]
    rw [jsTrim_eq_self (fun c hc => (hs c hc).2)]
  constructor
  · exact key (generateSlug name) (generateSlug_chars name)
  · exact key (generateCode name) (generateSlug_chars name)



/-- C7: every listing page requests `skip = pageIndex * pageSize` and
`take = pageSize` (products, orders and attributes pages alike). -/
theorem pagination_skip_take (p s : Nat) :
    (fetchProductsOptions (TablePagination.mk p s)).skip = p * s ∧
    (fetchProductsOptions (TablePagination.mk p s)).take = s ∧
    (fetchOrdersOptions (TablePagination.mk p s)).skip = p * s ∧
    (fetchOrdersOptions (TablePagination.mk p s)).take = s ∧
    (fetchFacetsOptions (TablePagination.mk p s)).skip = p * s ∧
    (fetchFacetsOptions (TablePagination.mk p s)).take = s :=
  ⟨rfl, rfl, rfl, rfl, rfl, rfl⟩

/-- C8: a failed mutation only toasts and leaves the loaded state
unchanged: both failure paths of `deleteProduct` (thrown error and
non-DELETED payload) keep the table state and emit one error toast, and
the caught-error path of `addItemToOrder` keeps the draft order and
emits exactly one toast. -/
theorem mutation_failure_preserves_state
    (st refetched : ProductsPage) (productName message : String)
    (draftOrder : Option DraftOrder) (vid vname err : String)
    (result msg2 : String) (hres : result ≠ "DELETED") :
    (deleteProduct st productName (DeleteProductResponse.thrown message) refetched).1 = st ∧
    (deleteProduct st productName (DeleteProductResponse.thrown message) refetched).2.map
      Toast.color = ["error"] ∧
    (deleteProduct st productName (DeleteProductResponse.payload result msg2) refetched).1 = st ∧
    (deleteProduct st productName (DeleteProductResponse.payload result msg2) refetched).2.map
      Toast.color = ["error"] ∧
    (addItemToOrder draftOrder vid vname (Except.error err)).1 = draftOrder ∧
    (addItemToOrder draftOrder vid vname (Except.error err)).2.1.length = 1 := by
  refine ⟨rfl, rfl, ?_, ?_, ?_, ?_⟩
  · simp [deleteProduct, hres]
  · simp [deleteProduct, hres]
  · cases draftOrder with
    | none => rfl
    | some o =>
      by_cases hid : o.id = ""
      · simp [addItemToOrder, draftOrderId, hid]
      · by_cases hin : isVariantInOrder (some o) vid = true
        · simp [addItemToOrder, draftOrderId, hid, hin]
        · simp [addItemToOrder, draftOrderId, hid, hin]
  · cases draftOrder with
    | none => rfl
    | some o =>
      by_cases hid : o.id = ""
      · simp [addItemToOrder, draftOrderId, hid]
      · by_cases hin : isVariantInOrder (some o) vid = true
        · simp [addItemToOrder, draftOrderId, hid, hin]
        · simp [addItemToOrder, draftOrderId, hid, hin]

/-- Witness for C8 with a non-DELETED payload and a populated order. -/
theorem mutation_failure_preserves_state_witness :
    (deleteProduct samplePage "Shirt" (DeleteProductResponse.thrown "boom")
      samplePage).1 = samplePage ∧
    (deleteProduct samplePage "Shirt" (DeleteProductResponse.thrown "boom")
      samplePage).2.map Toast.color = ["error"] ∧
    (deleteProduct samplePage "Shirt"
      (DeleteProductResponse.payload "NOT_DELETED" "in use") samplePage).1 = samplePage ∧
    (deleteProduct samplePage "Shirt"
      (DeleteProductResponse.payload "NOT_DELETED" "in use") samplePage).2.map
      Toast.color = ["error"] ∧
    (addItemToOrder (some sampleOrder) "v2" "Variant" (Except.error "net")).1 =
      some sampleOrder ∧
    (addItemToOrder (some sampleOrder) "v2" "Variant" (Except.error "net")).2.1.length = 1 :=
  mutation_failure_preserves_state samplePage samplePage "Shirt" "boom"
    (some sampleOrder) "v2" "Variant" "net" "NOT_DELETED" "in use" (by decide)

/-- C9: every `transitionOrderToState` mutation any handler of the
order-creation page can issue targets the state "ArrangingPayment". -/
theorem transition_only_to_arranging_payment
    (draftOrder : Option DraftOrder) (action : PageAction) (oid target : String)
    (h : GqlRequest.transitionOrderToState oid target ∈ pageRequests draftOrder action) :
    target = "ArrangingPayment" := by
  cases action
  case copyShippingToBilling =>
    cases draftOrder with
    | none => simp [pageRequests] at h
    | some o =>
      cases ho : o.shippingAddress with
      | none => simp [pageRequests, ho] at h
      | some addr => simp [pageRequests, ho] at h
  all_goals simp only [pageRequests, completeOrder, draftOrderId] at h
  all_goals repeat (split at h)
  all_goals simp_all

/-- Witness for C9: completing the sample order issues exactly the
transition to ArrangingPayment. -/
theorem transition_only_to_arranging_payment_witness :
    GqlRequest.transitionOrderToState "order1" "ArrangingPayment" ∈
      pageRequests (some sampleOrder) PageAction.finishOrder ∧
    ("ArrangingPayment" : String) = "ArrangingPayment" :=
  ⟨by decide,
   transition_only_to_arranging_payment (some sampleOrder) PageAction.finishOrder
     "order1" "ArrangingPayment" (by decide)⟩

/-- C10: adding a variant already present among the order lines sends no
mutation, leaves the draft order unchanged and shows only the
informational toast; moreover an `addItemToDraftOrder` request is only
ever issued when the variant is not in the order. -/
theorem duplicate_variant_add_is_noop
    (o : DraftOrder) (hid : o.id ≠ "") (vid vname : String)
    (response : Except String (Option DraftOrder))
    (hin : isVariantInOrder (some o) vid = true) :
    addItemToOrder (some o) vid vname response =
      (some o, [Toast.mk "Info" "This item is already in the order" "info"], []) ∧
    ∀ (draftOrder : Option DraftOrder) (vid2 vname2 : String)
      (r2 : Except String (Option DraftOrder)) (req : GqlRequest),
      req ∈ (addItemToOrder draftOrder vid2 vname2 r2).2.2 →
      isVariantInOrder draftOrder vid2 = false := by
  constructor
  · simp [addItemToOrder, draftOrderId, hid, hin]
  · intro draftOrder vid2 vname2 r2 req hreq
    cases draftOrder with
    | none => simp [addItemToOrder, draftOrderId] at hreq
    | some o2 =>
      by_cases h2 : o2.id = ""
      · simp [addItemToOrder, draftOrderId, h2] at hreq
      · by_cases h3 : isVariantInOrder (some o2) vid2 = true
        · simp [addItemToOrder, draftOrderId, h2, h3] at hreq
        · simp only [Bool.not_eq_true] at h3
          exact h3

/-- Witness for C10: re-adding variant "v1" of the sample order is a
no-op. -/
theorem duplicate_variant_add_is_noop_witness :
    addItemToOrder (some sampleOrder) "v1" "Variant" (Except.error "net") =
      (some sampleOrder,
       [Toast.mk "Info" "This item is already in the order" "info"], []) ∧
    ∀ (draftOrder : Option DraftOrder) (vid2 vname2 : String)
      (r2 : Except String (Option DraftOrder)) (req : GqlRequest),
      req ∈ (addItemToOrder draftOrder vid2 vname2 r2).2.2 →
      isVariantInOrder draftOrder vid2 = false :=
  duplicate_variant_add_is_noop sampleOrder (by decide) "v1" "Variant"
    (Except.error "net") (by decide)


end Dashboard
